import Mathlib

/-!
Verification of the `go-router` HTTP multiplexer (xandalm/go-router).

This file shallowly embeds the data model and the operations of
`router.go` / `request.go` in Lean 4 and proves or refutes the frozen
claims about the package.

Conventions of the embedding:
* Go strings are embedded as `List Char` (`GoStr`); all Go string
  operations used by the router (`strings.Split`, `strings.TrimPrefix`,
  `strings.TrimSuffix`, slicing of the last byte) are reimplemented
  one-to-one on lists.  All inputs relevant to the claims are ASCII, so
  byte indexing and rune indexing agree.
* Go maps (`map[string]*routerNamespace`, `map[string]Handler`) are
  embedded as association lists with insert-or-overwrite update, which
  preserves exactly the lookup/insert/delete behaviour the code uses.
* Handlers, middlewares and middleware error handlers are opaque user
  values; they are embedded as numeric identifiers (plus, for
  middlewares, the observable behaviour of one `Intercept` call).
* Panics (`panic(...)` in Go, and runtime faults such as indexing a nil
  slice) are embedded as the `Except` error component `RtPanic`.
* The two validation regexes and the per-entry compiled regexes are
  embedded semantically: validation uses a Brzozowski-derivative matcher
  over a literal transcription of the regex ASTs, and the compiled
  `createRegExp` patterns use an explicit token list (`RTok`) with a
  backtracking submatch engine that mirrors leftmost-first greedy
  matching of `[^/]+` capture groups.
-/

set_option autoImplicit false

namespace GoRouter

/-- Embedding of a Go string as a list of characters. -/
abbrev GoStr := List Char

/-- Coercion from a Lean string literal to the `GoStr` embedding. -/
def gs (s : String) : GoStr := s.data

/-- Word character in Go regexp: `\w` is `[0-9A-Za-z_]`. -/
def wch (c : Char) : Bool := c.isAlphanum || c = '_'

/-- Mirrors `strings.Split(s, sep)` for a one-character separator.
Returns `[[]]` on the empty string, like Go. -/
def splitChar (sep : Char) : GoStr → List GoStr
  | [] => [[]]
  | c :: cs =>
    match splitChar sep cs with
    | [] => [[c]]
    | h :: t => if c = sep then [] :: h :: t else (c :: h) :: t

/-- Boolean prefix test on character lists (mirrors `strings.HasPrefix`). -/
def hasPre : GoStr → GoStr → Bool
  | [], _ => true
  | _ :: _, [] => false
  | a :: as, b :: bs => a = b && hasPre as bs

/-- Mirrors `strings.TrimPrefix(s, pre)`. -/
def dropPre (pre s : GoStr) : GoStr := if hasPre pre s then s.drop pre.length else s

/-- Boolean suffix test (mirrors `strings.HasSuffix`). -/
def hasSuf (suf s : GoStr) : Bool := hasPre suf.reverse s.reverse

/-- Mirrors `strings.TrimSuffix(s, suf)`. -/
def dropSuf (suf s : GoStr) : GoStr :=
  if hasSuf suf s then s.take (s.length - suf.length) else s

/-- Association-list lookup, mirroring Go map indexing `m[k]`. -/
def lookupA {α : Type} : List (GoStr × α) → GoStr → Option α
  | [], _ => none
  | (k, v) :: t, q => if k = q then some v else lookupA t q

/-- Association-list insert-or-overwrite, mirroring Go map assignment
`m[k] = v`. -/
def insertA {α : Type} : List (GoStr × α) → GoStr → α → List (GoStr × α)
  | [], k, v => [(k, v)]
  | (k', v') :: t, k, v => if k' = k then (k, v) :: t else (k', v') :: insertA t k v

/-! ### Brzozowski-derivative regex engine for the two validator regexes -/

/-- Regular-expression AST used to transcribe `patternValidator` and
`namespaceValidator` literally.  Character classes are predicates. -/
inductive RE where
  | emp : RE
  | eps : RE
  | cls (p : Char → Bool) : RE
  | cat (a b : RE) : RE
  | alt (a b : RE) : RE
  | star (a : RE) : RE

/-- Nullability: does the expression accept the empty string. -/
def RE.nullable : RE → Bool
  | .emp => false
  | .eps => true
  | .cls _ => false
  | .cat a b => a.nullable && b.nullable
  | .alt a b => a.nullable || b.nullable
  | .star _ => true

/-- Smart concatenation keeping derivative terms small. -/
def RE.mkCat : RE → RE → RE
  | .emp, _ => .emp
  | _, .emp => .emp
  | .eps, b => b
  | a, .eps => a
  | a, b => .cat a b

/-- Smart alternation keeping derivative terms small. -/
def RE.mkAlt : RE → RE → RE
  | .emp, b => b
  | a, .emp => a
  | a, b => .alt a b

/-- Brzozowski derivative of a regex by one character. -/
def RE.deriv : RE → Char → RE
  | .emp, _ => .emp
  | .eps, _ => .emp
  | .cls p, c => if p c then .eps else .emp
  | .cat a b, c =>
    if a.nullable then RE.mkAlt (RE.mkCat (a.deriv c) b) (b.deriv c)
    else RE.mkCat (a.deriv c) b
  | .alt a b, c => RE.mkAlt (a.deriv c) (b.deriv c)
  | .star a, c => RE.mkCat (a.deriv c) (.star a)

/-- Whole-string acceptance (the validators are anchored `^...$`). -/
def RE.accepts (r : RE) (s : GoStr) : Bool := (s.foldl RE.deriv r).nullable

/-- One or more repetitions, `r+`. -/
def RE.rep1 (r : RE) : RE := .cat r (.star r)

/-- Zero or one repetition, `r?`. -/
def RE.quest (r : RE) : RE := .alt r .eps

/-- Single-character literal. -/
def RE.chr (c : Char) : RE := .cls (fun d => d = c)

/-- Transcription of the host part `(?:\w+\.)+\w+` of the validators. -/
def hostRE : RE :=
  .cat (RE.rep1 (.cat (RE.rep1 (.cls wch)) (RE.chr '.'))) (RE.rep1 (.cls wch))

/-- Transcription of a path segment `(?:\w+|(?:\{\w+\}))+`. -/
def segRE : RE :=
  RE.rep1 (.alt (RE.rep1 (.cls wch))
    (.cat (RE.chr '\x7b') (.cat (RE.rep1 (.cls wch)) (RE.chr '\x7d'))))

/-- Transcription of the optional tail `(?:\/(?:\w*(?:\.\w+)*)?)?`. -/
def tailRE : RE :=
  RE.quest (.cat (RE.chr '/')
    (RE.quest (.cat (.star (.cls wch)) (.star (.cat (RE.chr '.') (RE.rep1 (.cls wch)))))))

/-- Literal transcription of
`patternValidator = ^((?:\w+\.)+\w+)?((?:\/(?:\w+|(?:\{\w+\}))+)*(?:\/(?:\w*(?:\.\w+)*)?)?)?$`. -/
def patternValidator : RE :=
  .cat (RE.quest hostRE)
    (RE.quest (.cat (.star (.cat (RE.chr '/') segRE)) tailRE))

/-- Literal transcription of
`namespaceValidator = ^((?:\w+\.)+\w+)?((?:\/?(?:\w+|(?:\{\w+\}))+)*(?:\/(?:\w*(?:\.\w+)*)?)?)?$`. -/
def namespaceValidator : RE :=
  .cat (RE.quest hostRE)
    (RE.quest (.cat (.star (.cat (RE.quest (RE.chr '/')) segRE)) tailRE))

/-- Mirrors `isValidPattern`: nonempty and accepted by the pattern
validator regex. -/
def isValidPattern (p : GoStr) : Bool :=
  match p with
  | [] => false
  | _ => patternValidator.accepts p

/-- Mirrors `isValidNamespace`: nonempty, not starting with `/`, and
accepted by the namespace validator regex. -/
def isValidNamespace (p : GoStr) : Bool :=
  match p with
  | [] => false
  | c :: _ => if c = '/' then false else namespaceValidator.accepts p

/-! ### The `paramsSeeker` scanner and compiled pattern tokens -/

/-- Token of a compiled `createRegExp` pattern: a literal character or a
named capture group `(?P<name>[^/]+)` produced from a `{name}` match of
`paramsSeeker = \{[^\/]+\}`. -/
inductive RTok where
  | lit (c : Char) : RTok
  | group (name : GoStr) : RTok
deriving DecidableEq

/-- Descending list `[n, n-1, ..., 1]`; used both by the greedy scanner
and by the greedy capture engine to try longer alternatives first. -/
def downFrom1 : Nat → List Nat
  | 0 => []
  | n + 1 => (n + 1) :: downFrom1 n

/-- Fuelled scanner for `paramsSeeker` matches.  At a `{`, the regexp
`\{[^\/]+\}` matches greedily: the content extends to the last `}` found
in the maximal slash-free run after the `{` (and must be nonempty);
otherwise the `{` stays a literal.  The fuel only bounds recursion; one
unit is consumed per emitted token, so `length + 1` always suffices. -/
def scanToksF : Nat → GoStr → List RTok
  | 0, _ => []
  | _ + 1, [] => []
  | f + 1, c :: rest =>
    if c = '\x7b' then
      let run := rest.takeWhile (fun d => d ≠ '/')
      match (downFrom1 (run.length - 1)).find? (fun j => run.get? j = some '\x7d') with
      | some j => .group (run.take j) :: scanToksF f (rest.drop (j + 1))
      | none => .lit c :: scanToksF f rest
    else
      .lit c :: scanToksF f rest

/-- Scanner over a whole pattern (fuel instantiated sufficiently). -/
def scanToks (s : GoStr) : List RTok := scanToksF (s.length + 1) s

/-- Names of the capture groups of a token list, in declaration order
(mirrors the non-empty entries of `Regexp.SubexpNames`). -/
def groupNamesT (toks : List RTok) : List GoStr :=
  toks.filterMap (fun t => match t with | .group n => some n | .lit _ => none)

/-! ### Backtracking submatch engine for compiled patterns

`createRegExp` turns a pattern into `^ ... $` where every `paramsSeeker`
match `{name}` becomes `(?P<name>[^/]+)` and every other character is a
literal (the `\/` and `\.` escapes are semantically the characters
themselves).  Go's regexp has leftmost-first semantics, so `[^/]+` is
greedy with backtracking; `rmatchF`/`tryLensF` implement exactly that:
a group tries the longest slash-free nonempty prefix first.  The fuel
only bounds the recursion; `(|s|+2)^(|toks|+1)` dominates the number of
nodes of the backtracking tree, so the wrapper `rmatch` never runs out. -/

mutual

/-- Anchored match of a token list against a string, returning the list
of `(group name, captured text)` pairs in declaration order, or `none`
if the whole string does not match. -/
def rmatchF : Nat → List RTok → GoStr → Option (List (GoStr × GoStr))
  | 0, _, _ => none
  | _ + 1, [], [] => some []
  | _ + 1, [], _ :: _ => none
  | _ + 1, .lit _ :: _, [] => none
  | f + 1, .lit c :: ts, d :: ds => if c = d then rmatchF f ts ds else none
  | f + 1, .group name :: ts, ds =>
    tryLensF f name ts ds (downFrom1 (ds.takeWhile (fun d => d ≠ '/')).length)

/-- Greedy backtracking over the candidate capture lengths `js`
(descending): the first length whose remainder matches wins. -/
def tryLensF : Nat → GoStr → List RTok → GoStr → List Nat → Option (List (GoStr × GoStr))
  | 0, _, _, _, _ => none
  | _ + 1, _, _, _, [] => none
  | f + 1, name, ts, ds, j :: js =>
    match rmatchF f ts (ds.drop j) with
    | some caps => some ((name, ds.take j) :: caps)
    | none => tryLensF f name ts ds js

end

/-- Submatch with sufficient fuel. -/
def rmatch (toks : List RTok) (s : GoStr) : Option (List (GoStr × GoStr)) :=
  rmatchF ((s.length + 2) ^ (toks.length + 1)) toks s

/-- Compiled regular expression of a router entry: either the special
root regex `^\/?$` or a compiled pattern. -/
inductive Re where
  | root : Re
  | compiled (toks : List RTok) : Re
deriving DecidableEq

/-- Mirrors `Regexp.FindStringSubmatch` restricted to the named groups:
`none` when there is no match, otherwise the named captures in order. -/
def Re.findSub : Re → GoStr → Option (List (GoStr × GoStr))
  | .root, s => if s = [] || s = [ '/' ] then some [] else none
  | .compiled toks, s => rmatch toks s

/-- Mirrors `Regexp.MatchString`. -/
def Re.matches (r : Re) (s : GoStr) : Bool := (r.findSub s).isSome

/-- Named capture groups of the regex (the non-empty `SubexpNames`). -/
def Re.subNames : Re → List GoStr
  | .root => []
  | .compiled toks => groupNamesT toks

/-- Go's `regexp.MustCompile` panics on an invalid or duplicate capture
group name; `compilePat` mirrors `createRegExp` including that check. -/
def validGroupName (n : GoStr) : Bool := !n.isEmpty && n.all wch

/-- Boolean no-duplicates test on group names. -/
def nodupB : List GoStr → Bool
  | [] => true
  | x :: xs => !(xs.contains x) && nodupB xs

/-- Runtime faults of the embedded code: the four registration panics of
`router.go`, the `MustCompile` panic inside `createRegExp`, the nil
dereference of registering under a nil namespace, and the two slice
faults reachable in `handler` and `crossMiddlewaresLayer`. -/
inductive RtPanic where
  | invalidPattern : RtPanic
  | emptyHandler : RtPanic
  | missingHandler : RtPanic
  | endpointDuplication : RtPanic
  | regexpCompile : RtPanic
  | nilDeref : RtPanic
  | indexOutOfRange : RtPanic
  | sliceOutOfRange : RtPanic
deriving DecidableEq

/-- Mirrors `createRegExp` (plus the `MustCompile` success condition):
scan the pattern into tokens; fail like `MustCompile` if a capture name
is invalid or duplicated. -/
def compilePat (p : GoStr) : Except RtPanic (List RTok) :=
  let toks := scanToks p
  let names := groupNamesT toks
  if names.all validGroupName && nodupB names then .ok toks else .error .regexpCompile

end GoRouter

namespace GoRouter

/-! ### Namespaces, entries and the router state -/

/-- Observable behaviour of one `Intercept` call of a user middleware:
it calls `next()` with no argument, calls `next(err)` with an error
(embedded as a numeric code), or returns without calling `next`. -/
inductive MwB where
  | next : MwB
  | nextErr (e : Nat) : MwB
  | halt : MwB
deriving DecidableEq

/-- A middleware value: an opaque identity plus its behaviour. -/
structure Mw where
  id : Nat
  b : MwB
deriving DecidableEq

/-- A terminal entry (`routerEntry`): original pattern, compiled regex,
and the method-to-handler map `mh` (handlers are opaque ids). -/
structure Entry where
  pattern : GoStr
  re : Re
  mh : List (GoStr × Nat)
deriving DecidableEq

/-- A namespace tree node (`routerNamespace`): children keyed by
normalized fragment, attached middlewares, and the two optional entries
`es` (trailing-slash) and `eu` (no trailing slash).  The Go `name` field
always equals the key in the parent map and the parent pointer is only
used for path reconstruction, so neither needs to be stored. -/
inductive Node where
  | mk (children : List (GoStr × Node)) (mws : List Mw) (es eu : Option Entry) : Node

/-- Children map of a node. -/
def Node.children : Node → List (GoStr × Node)
  | .mk ch _ _ _ => ch

/-- Middlewares attached to a node. -/
def Node.mws : Node → List Mw
  | .mk _ m _ _ => m

/-- Trailing-slash entry of a node. -/
def Node.es : Node → Option Entry
  | .mk _ _ e _ => e

/-- No-trailing-slash entry of a node. -/
def Node.eu : Node → Option Entry
  | .mk _ _ _ e => e

/-- Router state (`Router`): root-level namespace map, global
middlewares, the optional middleware error handler (opaque id), the
dedicated root entry `e`, and the `host` flag. -/
structure RouterM where
  ns : List (GoStr × Node)
  mws : List Mw
  meh : Option Nat
  e : Option Entry
  host : Bool

/-- Mirrors `NewRouter()`. -/
def emptyR : RouterM := ⟨[], [], none, none, false⟩

/-- Mirrors `parseNamespace`: trim one leading and one trailing `/`,
then replace every `paramsSeeker` match with `\x7b\x7d`, collecting the
original matches (with braces) in order. -/
def parseNamespace (name : GoStr) : GoStr × List GoStr :=
  let n2 := dropSuf [ '/' ] (dropPre [ '/' ] name)
  let toks := scanToks n2
  (toks.foldr (fun t acc =>
      match t with
      | .lit c => c :: acc
      | .group _ => '\x7b' :: '\x7d' :: acc) [],
   toks.filterMap (fun t =>
      match t with
      | .group g => some ('\x7b' :: (g ++ [ '\x7d' ]))
      | .lit _ => none))

/-- Loop state of `closer`: current child map, last node found, the
consumed `path`, the accumulator `acc`, and (ghost data, not present in
Go) the list of child-map keys taken so far, used to rebuild the
immutable tree where Go mutates through pointers. -/
structure CloserSt where
  ns : List (GoStr × Node)
  n : Option Node
  path : GoStr
  acc : GoStr
  keys : List GoStr

/-- One iteration of the `closer` loop over a slash-separated token. -/
def closerStep (st : CloserSt) (nm : GoStr) : CloserSt :=
  let before := st.acc
  let acc := st.acc ++ nm
  match lookupA st.ns acc with
  | some nd => ⟨nd.children, some nd, st.path ++ acc ++ [ '/' ], [], st.keys ++ [acc]⟩
  | none =>
    match lookupA st.ns (before ++ [ '\x7b', '\x7d' ]) with
    | some nd =>
      ⟨nd.children, some nd, st.path ++ acc ++ [ '\x7b', '\x7d', '/' ], [],
        st.keys ++ [before ++ [ '\x7b', '\x7d' ]]⟩
    | none => ⟨st.ns, st.n, st.path, acc ++ [ '/' ], st.keys⟩

/-- Mirrors `closer(ns, name)`: returns the deepest node reached, the
consumed path (with the final-slash trim), and the ghost key list. -/
def closer (ns : List (GoStr × Node)) (name : GoStr) : Option Node × GoStr × List GoStr :=
  let st := (splitChar '/' name).foldl closerStep ⟨ns, none, [], [], []⟩
  let path := if st.path ≠ [] ∧ st.path ≠ name then st.path.dropLast else st.path
  (st.n, path, st.keys)

/-- Node lookup along a ghost key list. -/
def nodeAt : List (GoStr × Node) → List GoStr → Option Node
  | _, [] => none
  | ns, k :: ks =>
    match lookupA ns k with
    | none => none
    | some n =>
      match ks with
      | [] => some n
      | _ :: _ => nodeAt n.children ks

/-- Functional update of the node reached along a ghost key list. -/
def updateNodeAt (f : Node → Node) : List GoStr → Node → Node
  | [], n => f n
  | k :: ks, .mk ch mws es eu =>
    .mk (ch.map (fun kv => if kv.1 = k then (kv.1, updateNodeAt f ks kv.2) else kv)) mws es eu

/-- Functional update inside a child map along a ghost key list (no-op
for the empty list, which `register` never produces for valid input). -/
def updateNsAt (ns : List (GoStr × Node)) (keys : List GoStr) (f : Node → Node) :
    List (GoStr × Node) :=
  match keys with
  | [] => ns
  | k :: ks => ns.map (fun kv => if kv.1 = k then (kv.1, updateNodeAt f ks kv.2) else kv)

/-- Mirrors the mutation step of `Router.namespace`: given the child map
at the insertion point and the remainder `rest`, move every child whose
key extends `rest + "/"` under the new node and insert the new node. -/
def childTransform (m : List (GoStr × Node)) (rest : GoStr) : List (GoStr × Node) :=
  let moved := m.filterMap (fun kv =>
    let last := dropPre (rest ++ [ '/' ]) kv.1
    if last ≠ kv.1 then some (last, kv.2) else none)
  let kept := m.filter (fun kv => dropPre (rest ++ [ '/' ]) kv.1 = kv.1)
  insertA kept rest (Node.mk moved [] none none)

/-- Mirrors `Router.namespace(name)`: find-or-create the node of a
normalized name; returns the updated root map and the ghost key list of
the returned node (empty exactly when Go would return `nil`). -/
def nsInsert (ns : List (GoStr × Node)) (name : GoStr) : List (GoStr × Node) × List GoStr :=
  let c := closer ns name
  if c.2.1 = name then (ns, c.2.2)
  else
    let rest := dropPre (c.2.1 ++ [ '/' ]) name
    match c.1 with
    | none => (childTransform ns rest, [rest])
    | some _ =>
      (updateNsAt ns c.2.2
        (fun nd => Node.mk (childTransform nd.children rest) nd.mws nd.es nd.eu),
       c.2.2 ++ [rest])

/-! ### Registration -/

/-- Mirrors the duplicate check and method-map update that `register`
performs on an already existing entry (`router.go` lines 579-586):
exact method-token lookup in `mh`, then insert. -/
def registerInEntry (en : Entry) (h : Nat) (method : GoStr) : Except RtPanic Entry :=
  if (lookupA en.mh method).isSome then .error .endpointDuplication
  else .ok ⟨en.pattern, en.re, insertA en.mh method h⟩

/-- Mirrors `Router.register(pattern, handler, method)`.  A `none`
handler is Go's nil handler.  Note the root branch: when `ro.e` already
exists and the method is new, the code builds a fresh entry holding only
the new method, discarding the previous method map. -/
def RouterM.register (ro : RouterM) (pattern : GoStr) (handler : Option Nat)
    (method : GoStr) : Except RtPanic RouterM :=
  if isValidPattern pattern = false then .error .invalidPattern
  else
    match handler with
    | none => .error .emptyHandler
    | some h =>
      if pattern = [ '/' ] then
        match ro.e with
        | some en =>
          if (lookupA en.mh method).isSome then .error .endpointDuplication
          else .ok { ro with e := some ⟨pattern, .root, [(method, h)]⟩ }
        | none => .ok { ro with e := some ⟨pattern, .root, [(method, h)]⟩ }
      else
        let ro := if pattern.head? ≠ some '/' then { ro with host := true } else ro
        let name := (parseNamespace pattern).1
        let r := nsInsert ro.ns name
        match nodeAt r.1 r.2 with
        | none => .error .nilDeref
        | some n =>
          let slashed := pattern.getLast? = some '/'
          match (if slashed then n.es else n.eu) with
          | some en =>
            match registerInEntry en h method with
            | .error p => .error p
            | .ok en2 =>
              .ok { ro with ns := updateNsAt r.1 r.2 (fun nd =>
                if slashed then Node.mk nd.children nd.mws (some en2) nd.eu
                else Node.mk nd.children nd.mws nd.es (some en2)) }
          | none =>
            match compilePat pattern with
            | .error p => .error p
            | .ok toks =>
              let en2 : Entry := ⟨pattern, .compiled toks, [(method, h)]⟩
              .ok { ro with ns := updateNsAt r.1 r.2 (fun nd =>
                if slashed then Node.mk nd.children nd.mws (some en2) nd.eu
                else Node.mk nd.children nd.mws nd.es (some en2)) }

/-! ### Matching -/

/-- Entry selection at a node: `eu` is consulted before `es`, each
guarded by its regex (mirrors the tail of `Router.match`). -/
def entrySel (n : Node) (path : GoStr) : Option Entry :=
  match n.eu with
  | some e =>
    if e.re.matches path then some e
    else
      match n.es with
      | some e2 => if e2.re.matches path then some e2 else none
      | none => none
  | none =>
    match n.es with
    | some e2 => if e2.re.matches path then some e2 else none
    | none => none

/-- Mirrors `Router.match(path)`. -/
def RouterM.matchEntry (ro : RouterM) (path : GoStr) : Option Entry :=
  if path = [ '/' ] then ro.e
  else
    match (closer ro.ns (dropPre [ '/' ] path)).1 with
    | none => none
    | some n => entrySel n path

/-- Mirrors the parameter-building loop of `Router.handler`: run
`FindStringSubmatch` on the path and walk `SubexpNames`.  When the
regex does not match the path but has named groups, indexing the nil
`matches` slice is a Go runtime panic. -/
def buildParams (re : Re) (path : GoStr) : Except RtPanic (List (GoStr × GoStr)) :=
  match re.findSub path with
  | some caps => .ok (caps.foldl (fun m kv => insertA m kv.1 kv.2) [])
  | none => if re.subNames = [] then .ok [] else .error .indexOutOfRange

/-- Mirrors `Router.handler(host, path, method)`: `.ok none` is the
`("", nil, nil)` result, `.ok (some (pattern, handler, params))` a hit,
and `.error` a runtime panic. -/
def RouterM.handlerLow (ro : RouterM) (host path method : GoStr) :
    Except RtPanic (Option (GoStr × Nat × List (GoStr × GoStr))) :=
  let e1 := if ro.host then ro.matchEntry (host ++ path) else none
  let eo := match e1 with
    | some e => some e
    | none => ro.matchEntry path
  match eo with
  | none => .ok none
  | some e =>
    let ho := match lookupA e.mh method with
      | some h => some h
      | none => lookupA e.mh (gs "ALL")
    match ho with
    | none => .ok none
    | some h =>
      match buildParams e.re path with
      | .error p => .error p
      | .ok params => .ok (some (e.pattern, h, params))

/-! ### Path cleaning and host stripping -/

/-- Mirrors `path.Clean` for rooted inputs (the only inputs `cleanPath`
passes to it): resolve `.`, `..` and duplicate slashes. -/
def pathClean (p : GoStr) : GoStr :=
  let segs := splitChar '/' p
  let stack := segs.foldl (fun st s =>
    if s = [] ∨ s = [ '.' ] then st
    else if s = [ '.', '.' ] then st.dropLast
    else st ++ [s]) ([] : List GoStr)
  '/' :: List.intercalate [ '/' ] stack

/-- Trailing-slash restoration step of `cleanPath`, on the slash-rooted
path `p2` and its cleaned form `np`. -/
def cleanPathFix (p2 np : GoStr) : GoStr :=
  if p2.getLast? = some '/' ∧ np ≠ [ '/' ] then
    if p2.length = np.length + 1 ∧ hasPre np p2 then p2 else np ++ [ '/' ]
  else np

/-- Mirrors `cleanPath`: empty becomes `/`, a missing leading slash is
added, the path is cleaned, and a trailing slash is preserved. -/
def cleanPath (p : GoStr) : GoStr :=
  match p with
  | [] => [ '/' ]
  | c :: rest =>
    cleanPathFix (if c = '/' then c :: rest else '/' :: c :: rest)
      (pathClean (if c = '/' then c :: rest else '/' :: c :: rest))

/-- Mirrors `stripHostPort`: a host without a colon is returned as is;
otherwise `net.SplitHostPort` is applied.  `SplitHostPort` accepts the
bracketed form `[host]:port` (the bracketed host followed by exactly
one `:port`, both free of further brackets or colons) and the plain
form `host:port` (split at the last colon, the host part free of
further colons and of brackets); on any other input it errors, and the
Go wrapper then returns the empty string (its `host, _, err :=`
statement reassigns the `host` variable before the error check). -/
def stripHostPort (h : GoStr) : GoStr :=
  if h.contains ':' = false then h
  else if h.head? = some '[' then
    match (h.drop 1).drop ((h.drop 1).takeWhile (fun c => c ≠ ']')).length with
    | ']' :: ':' :: port =>
      if port.contains ':' = false ∧ port.contains '[' = false ∧ port.contains ']' = false
      then (h.drop 1).takeWhile (fun c => c ≠ ']') else []
    | _ => []
  else
    if (h.take (h.length - (h.reverse.takeWhile (fun c => c ≠ ':')).length - 1)).contains ':'
          = false
        ∧ h.contains '[' = false ∧ h.contains ']' = false
    then h.take (h.length - (h.reverse.takeWhile (fun c => c ≠ ':')).length - 1) else []

/-! ### Redirect probes and the public `Handler` -/

/-- Single candidate probe of `shouldRedirectToSlashPath`: the loop body
for one candidate `c` (the probed path is `c + "/"`). -/
def probeSlash (ro : RouterM) (method c : GoStr) : Option GoStr :=
  match (closer ro.ns (parseNamespace (c ++ [ '/' ])).1).1 with
  | none => none
  | some n =>
    match n.es with
    | none => none
    | some en =>
      if (lookupA en.mh method).isNone ∧ (lookupA en.mh (gs "ALL")).isNone then none
      else if en.re.matches (c ++ [ '/' ]) then some (c ++ [ '/' ]) else none

/-- Mirrors `Router.shouldRedirectToSlashPath`: Go first reads
`path[len(path)-1]`, which for the empty path (reachable via CONNECT
requests with an empty URL path) is an index-out-of-range panic;
otherwise everything is skipped when the path already ends in `/`, and
the candidates `path` then `host+path` are probed. -/
def RouterM.shouldRedirectToSlashPath (ro : RouterM) (host path method : GoStr) :
    Except RtPanic (Option GoStr) :=
  match path.getLast? with
  | none => .error .indexOutOfRange
  | some c =>
    if c = '/' then .ok none
    else
      match probeSlash ro method path with
      | some ps => .ok (some ps)
      | none => .ok (probeSlash ro method (host ++ path))

/-- Single candidate probe of `shouldRedirectToUnslashPath` (the probed
path is `c` without its last byte). -/
def probeUnslash (ro : RouterM) (method c : GoStr) : Option GoStr :=
  match (closer ro.ns (parseNamespace c.dropLast).1).1 with
  | none => none
  | some n =>
    match n.eu with
    | none => none
    | some en =>
      if (lookupA en.mh method).isNone ∧ (lookupA en.mh (gs "ALL")).isNone then none
      else if en.re.matches c.dropLast then some c.dropLast else none

/-- Mirrors `Router.shouldRedirectToUnslashPath`, with the same
last-byte read first (an index-out-of-range panic on the empty path). -/
def RouterM.shouldRedirectToUnslashPath (ro : RouterM) (host path method : GoStr) :
    Except RtPanic (Option GoStr) :=
  match path.getLast? with
  | none => .error .indexOutOfRange
  | some c =>
    if c = '/' then
      match probeUnslash ro method path with
      | some ps => .ok (some ps)
      | none => .ok (probeUnslash ro method (host ++ path))
    else .ok none

/-- Result handler shape of `Router.Handler`: a user handler (opaque
id), the shared not-found handler, or a redirect handler with its
target URL. -/
inductive HRes where
  | h (id : Nat) : HRes
  | notFound : HRes
  | redirect (url : GoStr) : HRes
deriving DecidableEq

/-- Embedded request: the fields of `*http.Request` the router reads. -/
structure Req where
  method : GoStr
  host : GoStr
  urlHost : GoStr
  urlPath : GoStr
  rawQuery : GoStr
  requestURI : GoStr

/-- Mirrors `(&url.URL{Path: p, RawQuery: q}).String()` for the simple
paths the router builds (URL escaping is not exercised by any claim). -/
def urlStr (p q : GoStr) : GoStr := if q = [] then p else p ++ '?' :: q

/-- Body of `Router.Handler(r)` after the host/path selection: match,
clean-path redirect wrapping, the two trailing-slash probes (whose
empty-path panic propagates), and the not-found fallback. -/
def handlerCore (ro : RouterM) (host path : GoStr) (r : Req) :
    Except RtPanic (HRes × GoStr × Option (List (GoStr × GoStr))) :=
  match ro.handlerLow host path r.method with
  | .error p => .error p
  | .ok (some phw) =>
    if path ≠ [ '/' ] ∧ path ≠ r.urlPath then
      .ok (.redirect (urlStr path r.rawQuery), path, none)
    else .ok (.h phw.2.1, phw.1, some phw.2.2)
  | .ok none =>
    match ro.shouldRedirectToSlashPath host path r.method with
    | .error p => .error p
    | .ok (some np) => .ok (.redirect (urlStr np r.rawQuery), np, none)
    | .ok none =>
      match ro.shouldRedirectToUnslashPath host path r.method with
      | .error p => .error p
      | .ok (some np) => .ok (.redirect (urlStr np r.rawQuery), np, none)
      | .ok none => .ok (.notFound, [], none)

/-- Host and path the router resolves for a request (the head of
`Router.Handler`): the URL authority pair for CONNECT, otherwise the
stripped Host header and the cleaned URL path. -/
def resolvedHostPath (r : Req) : GoStr × GoStr :=
  if r.method = gs "CONNECT" then (r.urlHost, r.urlPath)
  else (stripHostPort r.host, cleanPath r.urlPath)

/-- Mirrors `Router.Handler(r)`: returns the handler, the pattern, and
the params (`none` embeds Go's nil `Params`). -/
def RouterM.HandlerTop (ro : RouterM) (r : Req) :
    Except RtPanic (HRes × GoStr × Option (List (GoStr × GoStr))) :=
  handlerCore ro (resolvedHostPath r).1 (resolvedHostPath r).2 r

end GoRouter

namespace GoRouter

/-! ### Middleware engine (`crossMiddlewaresLayer`) and `ServeHTTP`

The Go implementation coordinates one layer of middlewares through a
buffered channel `iCh` of capacity 1 and a `select` over `iCh` and the
request context.  On a single request goroutine with a context that is
never cancelled (the situation all middleware claims quantify over) the
loop is deterministic:
* a middleware that calls `next()` causes `idx+1` to be sent, so the
  loop proceeds to the next middleware;
* a middleware that calls `next(err)` appends the error and exits the
  loop (the child layer is still visited afterwards);
* a middleware that returns without calling `next` sends nothing, so
  the `select` waits on two channels that can never fire again: the
  layer function blocks forever (`.stuck` / `.blocked` below).
-/

/-- Observable dispatch events: a middleware invocation, a status write
by one of the library handlers, a user handler invocation, or an error
handler invocation. -/
inductive Event where
  | mwCalled (id : Nat) : Event
  | wroteStatus (code : Nat) : Event
  | invokedHandler (id : Nat) : Event
  | errHandled (meh e : Nat) : Event
deriving DecidableEq

/-- Result of the in-layer middleware loop. -/
inductive MRes where
  | proceeded : MRes
  | errored (e : Nat) : MRes
  | stuck : MRes
deriving DecidableEq

/-- Runs the middlewares of one layer in order (the `for`/`select` loop
of `crossMiddlewaresLayer` with an uncancelled context). -/
def runMws : List Mw → List Event × MRes
  | [] => ([], .proceeded)
  | m :: rest =>
    match m.b with
    | .halt => ([.mwCalled m.id], .stuck)
    | .nextErr e => ([.mwCalled m.id], .errored e)
    | .next =>
      let r := runMws rest
      (.mwCalled m.id :: r.1, r.2)

/-- Outcome of a full `crossMiddlewaresLayer` call tree. -/
inductive LOut where
  | done (errs : List Nat) : LOut
  | blocked : LOut
  | panicked : LOut
deriving DecidableEq

/-- Mirrors `crossMiddlewaresLayer(path, ns, mw, w, r)`: run this
layer's middlewares, then recurse into the child named by the first
path element.  An erroring layer still visits its child layer, exactly
as the Go code appends the child's errors after the loop exits.  With
an empty `path`, Go computes `l = ""` and, if a child keyed `""`
existed, slicing `path[1:]` would fault (`.panicked`); such keys are
unreachable, but the embedding keeps the fault explicit. -/
def runLayers : List GoStr → List (GoStr × Node) → List Mw → List Event × LOut
  | path, ns, mws =>
    let r := runMws mws
    match r.2 with
    | .stuck => (r.1, .blocked)
    | res =>
      let errsHere : List Nat := match res with | .errored e => [e] | _ => []
      match path with
      | [] =>
        match lookupA ns [] with
        | some _ => (r.1, .panicked)
        | none => (r.1, .done errsHere)
      | l :: rest =>
        match lookupA ns l with
        | some fwd =>
          let r2 := runLayers rest fwd.children fwd.mws
          match r2.2 with
          | .done errs2 => (r.1 ++ r2.1, .done (errsHere ++ errs2))
          | o => (r.1 ++ r2.1, o)
        | none => (r.1, .done errsHere)

/-- Mirrors `Router.crossMiddlewares(p, w, r)`: trim the pattern's
outer slashes, split on `/`, and walk the layers from the root. -/
def RouterM.crossMw (ro : RouterM) (p : GoStr) : List Event × LOut :=
  runLayers (splitChar '/' (dropSuf [ '/' ] (dropPre [ '/' ] p))) ro.ns ro.mws

/-- Events produced by `ServeHTTP` when the middleware pipeline
surfaced an error: the registered error handler, or a 500 reply. -/
def mwErrorEvents (meh : Option Nat) (e : Nat) : List Event :=
  match meh with
  | none => [.wroteStatus 500]
  | some m => [.errHandled m e]

/-- Events produced by running the selected handler: the not-found
handler writes 404, a redirect handler writes 301, a user handler is
invoked. -/
def hresEvents : HRes → List Event
  | .notFound => [.wroteStatus 404]
  | .redirect _ => [.wroteStatus 301]
  | .h id => [.invokedHandler id]

/-- Outcome of one `ServeHTTP` dispatch. -/
inductive SOut where
  | returned : SOut
  | blockedS : SOut
  | panickedS (p : RtPanic) : SOut
deriving DecidableEq

/-- Mirrors `Router.ServeHTTP(w, r)` (for a request whose context is
never cancelled): the `*` fast path, matching, the middleware walk
along the matched pattern, then either error surfacing or the handler. -/
def RouterM.serve (ro : RouterM) (r : Req) : List Event × SOut :=
  if r.requestURI = [ '*' ] then ([.wroteStatus 400], .returned)
  else
    match ro.HandlerTop r with
    | .error p => ([], .panickedS p)
    | .ok res =>
      let c := ro.crossMw res.2.1
      match c.2 with
      | .blocked => (c.1, .blockedS)
      | .panicked => (c.1, .panickedS .sliceOutOfRange)
      | .done errs =>
        match errs with
        | [] => (c.1 ++ hresEvents res.1, .returned)
        | e :: _ => (c.1 ++ mwErrorEvents ro.meh e, .returned)

/-! ### `Use` -/

/-- Argument shapes of `Router.Use(v any, mws ...Middleware)`.  Go's
type switch dispatches on the dynamic type of `v`; an untyped nil `v`
has no dynamic type and matches no case (`nilArg`), in which case the
variadic middlewares are discarded as well. -/
inductive UseArg where
  | errH (id : Nat) : UseArg
  | onPath (p : GoStr) (mws : List Mw) : UseArg
  | onRouter (m : Mw) (rest : List Mw) : UseArg
  | nilArg (mws : List Mw) : UseArg

/-- Mirrors `Router.Use`: set the error handler, attach middlewares to
a path's namespace, append global middlewares, or — for an absent
argument — fall through the type switch and do nothing. -/
def RouterM.useArg (ro : RouterM) : UseArg → RouterM
  | .errH id => { ro with meh := some id }
  | .onPath p mws =>
    let r := nsInsert ro.ns p
    let ns2 := updateNsAt r.1 r.2 (fun nd => Node.mk nd.children (nd.mws ++ mws) nd.es nd.eu)
    { ro with ns := ns2 }
  | .onRouter m rest => { ro with mws := ro.mws ++ m :: rest }
  | .nilArg _ => ro

/-! ### `Request.ParseBodyInto`

Modelled from the spec: the body-parsing helper with the full error
taxonomy (`MissingPointer`, `NilPointer`, `UnsupportedInt`,
`UnsupportedFloat`, `NilBody`, the generic record parse error and the
generic unsupported-target error, spec §6) is absent from `src/`; only
its tests survive there (`src/request_test.go` references `ErrNilBody`,
float parsing and the nil-pointer panic, none of which exist in
`src/request.go`).  The model follows the spec's taxonomy, with the
pointer faults raised as panics — which is what both generations of
`TestParseBodyInto` in `src/request_test.go` demand ("panic if not give
pointer", "panic if give a nil pointer") and what every surviving
implementation draft does. -/

/-- Shape of the target of `ParseBodyInto`, discriminated the way the
code inspects `reflect.ValueOf(v)`. -/
inductive BodyTarget where
  | notPtr : BodyTarget
  | nilPtr : BodyTarget
  | toStr : BodyTarget
  | toInt : BodyTarget
  | toFloat : BodyTarget
  | toRecord : BodyTarget
  | other : BodyTarget
deriving DecidableEq

/-- Error kinds of the body-parsing taxonomy. -/
inductive ParseErr where
  | missingPointer : ParseErr
  | nilPointer : ParseErr
  | unsupportedInt : ParseErr
  | unsupportedFloat : ParseErr
  | nilBody : ParseErr
  | recordParse : ParseErr
  | unsupportedTarget : ParseErr
deriving DecidableEq

/-- Parsed value assigned through the pointer. -/
inductive ParsedVal where
  | str (s : GoStr) : ParsedVal
  | intv (s : GoStr) : ParsedVal
  | floatv (s : GoStr) : ParsedVal
  | record (s : GoStr) : ParsedVal
deriving DecidableEq

/-- Outcome of `ParseBodyInto`: a panic, a returned error, or a
successful assignment. -/
inductive ParseOutcome where
  | panicked (e : ParseErr) : ParseOutcome
  | failed (e : ParseErr) : ParseOutcome
  | assigned (v : ParsedVal) : ParseOutcome
deriving DecidableEq

/-- Success of `strconv.Atoi`: an optional sign followed by at least
one decimal digit (the overflow bound is not exercised by any claim). -/
def atoiOk (s : GoStr) : Bool :=
  match s with
  | [] => false
  | c :: rest =>
    let ds := if c = '+' ∨ c = '-' then rest else s
    !ds.isEmpty && ds.all Char.isDigit

/-- Modelled from the spec: success of parsing the body as a decimal
float numeral (optional sign, digits with at most one point, at least
one digit; exponent and special forms are not exercised by any claim). -/
def floatOk (s : GoStr) : Bool :=
  match s with
  | [] => false
  | c :: rest =>
    let ds := if c = '+' ∨ c = '-' then rest else s
    !ds.isEmpty && ds.all (fun d => d.isDigit || d = '.') &&
      (ds.filter (fun d => d = '.')).length ≤ 1 && ds.any Char.isDigit

/-- Modelled from the spec: `parse_body_into(target)` over a target
shape and an optional body, parameterized by the JSON decoder's success
on record targets.  Pointer faults panic (per the repository's tests);
parsing faults are returned. -/
def parseBodyInto (recordDecodeOk : GoStr → Bool) (t : BodyTarget) (body : Option GoStr) :
    ParseOutcome :=
  match t with
  | .notPtr => .panicked .missingPointer
  | .nilPtr => .panicked .nilPointer
  | .other => .failed .unsupportedTarget
  | .toStr =>
    match body with
    | none => .failed .nilBody
    | some b => .assigned (.str b)
  | .toInt =>
    match body with
    | none => .failed .nilBody
    | some b => if atoiOk b then .assigned (.intv b) else .failed .unsupportedInt
  | .toFloat =>
    match body with
    | none => .failed .nilBody
    | some b => if floatOk b then .assigned (.floatv b) else .failed .unsupportedFloat
  | .toRecord =>
    match body with
    | none => .failed .nilBody
    | some b => if recordDecodeOk b then .assigned (.record b) else .failed .recordParse

end GoRouter

namespace GoRouter

/-! ### Concrete instances used by individual claims -/

/-- Router after `register("/", h1, GET)` then `register("/", h2, POST)`
(both succeed), for claim C1. -/
def c1Seq : Except RtPanic RouterM :=
  (emptyR.register (gs "/") (some 1) (gs "GET")).bind
    (fun r => r.register (gs "/") (some 2) (gs "POST"))

/-- Router after only `register("/", h1, GET)`, for claim C1. -/
def c1First : Except RtPanic RouterM := emptyR.register (gs "/") (some 1) (gs "GET")

/-- Request `GET /` (host `site.com`), for claim C1. -/
def c1Req : Req := ⟨gs "GET", gs "site.com", [], gs "/", [], gs "/"⟩

/-- Pattern used by the C2 duplicate-detection scenarios. -/
def c2Pat : GoStr := gs "/path"

/-- Router after `register("/path", h1, ALL)`, for claim C2. -/
def c2AllFirst : Except RtPanic RouterM := emptyR.register c2Pat (some 1) (gs "ALL")

/-- Router after `register("/path", h1, GET)`, for claim C2. -/
def c2GetFirst : Except RtPanic RouterM := emptyR.register c2Pat (some 1) (gs "GET")

/-- Routers of the C6 trailing-slash scenario, in the two registration
orders (`h1 = 1` on `/users/`, `h2 = 2` on `/users`). -/
def c6SlashFirst : Except RtPanic RouterM :=
  (emptyR.register (gs "/users/") (some 1) (gs "GET")).bind
    (fun r => r.register (gs "/users") (some 2) (gs "GET"))

/-- Reverse registration order of the C6 scenario. -/
def c6NoSlashFirst : Except RtPanic RouterM :=
  (emptyR.register (gs "/users") (some 2) (gs "GET")).bind
    (fun r => r.register (gs "/users/") (some 1) (gs "GET"))

/-- Request `GET /users/`, for claim C6. -/
def c6ReqSlash : Req := ⟨gs "GET", gs "site.com", [], gs "/users/", [], gs "/users/"⟩

/-- Request `GET /users`, for claim C6. -/
def c6ReqNoSlash : Req := ⟨gs "GET", gs "site.com", [], gs "/users", [], gs "/users"⟩

/-- Witness entry for the C6 tie-break conjunct. -/
def c6Ent : Entry := ⟨gs "/x", .compiled (scanToks (gs "/x")), [(gs "GET", 1)]⟩

/-- Witness node (with only a no-slash entry) for the C6 tie-break
conjunct. -/
def c6Node : Node := Node.mk [] [] none (some c6Ent)

/-- Tree after `namespace("a/b/c")`, for claim C7. -/
def c7A : List (GoStr × Node) × List GoStr := nsInsert [] (gs "a/b/c")

/-- Tree after an additional `namespace("a")`, for claim C7. -/
def c7B : List (GoStr × Node) × List GoStr := nsInsert c7A.1 (gs "a")

/-- Tree after an additional `namespace("a/b")`, for claim C7. -/
def c7C : List (GoStr × Node) × List GoStr := nsInsert c7B.1 (gs "a/b")

/-- Child keys of the node reached along a key list. -/
def childKeysAt (ns : List (GoStr × Node)) (keys : List GoStr) : Option (List GoStr) :=
  (nodeAt ns keys).map (fun n => n.children.map Prod.fst)

/-- Router with the host-qualified parameterized pattern
`site.com/users/{id}` registered on GET, for claim C5. -/
def c5HostSeq : Except RtPanic RouterM :=
  emptyR.register (gs "site.com/users/\x7bid\x7d") (some 1) (gs "GET")

/-- Request `GET /users/42` with host `site.com`, for claim C5. -/
def c5HostReq : Req := ⟨gs "GET", gs "site.com", [], gs "/users/42", [], gs "/users/42"⟩

/-- Router whose single global middleware returns without calling
`next`, for claim C3. -/
def c3Router : RouterM := ⟨[], [⟨0, .halt⟩], none, none, false⟩

/-- Request `GET /` for claim C3. -/
def c3Req : Req := ⟨gs "GET", gs "site.com", [], gs "/", [], gs "/"⟩

/-- Discriminates a returned failure from a panic or a success, for
claim C8. -/
def isReturnedFailure : ParseOutcome → Bool
  | .failed _ => true
  | _ => false

/-- JSON decoder stub that always fails, for the C8 witnesses. -/
def c8NoDecode : GoStr → Bool := fun _ => false

end GoRouter

namespace GoRouter

/-! ### Further definitions for the redirect and capture claims -/

/-- Reconstruction of the matched string from a token list and its
captures: literals contribute themselves, each group contributes its
captured text.  Used to state that a capture is bound to exactly the
corresponding piece of the path. -/
def reconL : List RTok → List (GoStr × GoStr) → GoStr
  | [], _ => []
  | .lit c :: ts, caps => c :: reconL ts caps
  | .group _ :: ts, [] => reconL ts []
  | .group _ :: ts, kv :: caps => kv.2 ++ reconL ts caps

/-- The C4 claim's conditions for one slash-probe candidate `c` (probed
path `c + "/"`): the closer walk reaches a node, that node's
trailing-slash entry exists, its compiled regex matches the probed
path, and the entry carries a handler for the method or for `ALL`. -/
def slashCandOK (ro : RouterM) (method c : GoStr) : Bool :=
  match (closer ro.ns (parseNamespace (c ++ [ '/' ])).1).1 with
  | none => false
  | some n =>
    match n.es with
    | none => false
    | some en =>
      en.re.matches (c ++ [ '/' ]) &&
        ((lookupA en.mh method).isSome || (lookupA en.mh (gs "ALL")).isSome)

/-- The C4 claim's conditions for one unslash-probe candidate `c`
(probed path `c` without its last byte), against the node's no-slash
entry. -/
def unslashCandOK (ro : RouterM) (method c : GoStr) : Bool :=
  match (closer ro.ns (parseNamespace c.dropLast).1).1 with
  | none => false
  | some n =>
    match n.eu with
    | none => false
    | some en =>
      en.re.matches c.dropLast &&
        ((lookupA en.mh method).isSome || (lookupA en.mh (gs "ALL")).isSome)

/-- Some probed candidate (over the two probe directions and the two
candidates `path` and `host+path` of each) satisfies the C4 claim's
entry/regex/method conditions. -/
def redirectJustifiedB (ro : RouterM) (host path method : GoStr) : Bool :=
  slashCandOK ro method path || slashCandOK ro method (host ++ path) ||
    unslashCandOK ro method path || unslashCandOK ro method (host ++ path)

/-- Discriminates a redirect result of `Handler`. -/
def isRedirect3 (r : Except RtPanic (HRes × GoStr × Option (List (GoStr × GoStr)))) : Bool :=
  match r with
  | .ok (.redirect _, _, _) => true
  | _ => false

/-- Request `GET /a` against an empty router, for the C4 witness. -/
def c4WReq : Req := ⟨gs "GET", gs "site.com", [], gs "/a", [], gs "/a"⟩

/-- Request `GET /nothing` resolving to not-found, for the C10
witness. -/
def c10Req : Req := ⟨gs "GET", gs "site.com", [], gs "/nothing", [], gs "/nothing"⟩

/-- The middleware chain applicable to a dispatch along `path`: this
layer's middlewares followed by the chain of the child layer named by
the first path element (nothing more when that child is absent; for
the empty path no child chain exists — Go would fault on `path[1:]`
before running any further middleware, and the layer runner makes that
fault explicit). -/
def mwChain : List GoStr → List (GoStr × Node) → List Mw → List Mw
  | [], _, mws => mws
  | l :: rest, ns, mws =>
    mws ++ (match lookupA ns l with
      | some fwd => mwChain rest fwd.children fwd.mws
      | none => [])

/-- The full middleware pipeline of a request whose matched pattern is
`p`: the flattened layer walk of `crossMiddlewares`. -/
def RouterM.pipelineChain (ro : RouterM) (p : GoStr) : List Mw :=
  mwChain (splitChar '/' (dropSuf [ '/' ] (dropPre [ '/' ] p))) ro.ns ro.mws

/-- Entry serving `GET /p`, for the C3 witness. -/
def c3NodeEnt : Entry := ⟨gs "/p", .compiled (scanToks (gs "/p")), [(gs "GET", 9)]⟩

/-- Router whose namespace node `p` carries a middleware that returns
without calling `next`, behind a global middleware that calls `next()`
(for the C3 witness: the halting middleware sits in a namespace layer,
not in the global chain). -/
def c3NodeRouter : RouterM :=
  ⟨[(gs "p", Node.mk [] [⟨1, .halt⟩] none (some c3NodeEnt))], [⟨0, .next⟩], none, none, false⟩

/-- Request `GET /p`, for the C3 witness. -/
def c3NodeReq : Req := ⟨gs "GET", gs "site.com", [], gs "/p", [], gs "/p"⟩

/-- CONNECT request in authority form: the URL path is empty, for the
C4 counterexample. -/
def c4ConnReq : Req :=
  ⟨gs "CONNECT", gs "site.com:443", gs "site.com:443", [], [], gs "site.com:443"⟩

/-! ### Claim theorems -/

/-- C1: the claim asserts that a successful `register(p, h, m)` keeps
`(h, p)` reachable under method `m` after any later successful
registrations, "including further registrations on the root pattern `/`
with different methods".  The code violates exactly the highlighted
root case: the `pattern == "/"` branch of `register` builds a fresh
entry containing only the new method instead of inserting into the
existing method map (contrast with the non-root branch, which inserts),
so `register("/", h1, GET)` followed by the accepted
`register("/", h2, POST)` silently discards `h1`: a subsequent `GET /`
resolves to the not-found handler with empty pattern and nil params,
while before the second registration it resolved to `h1` with pattern
`/`.  The method-map duplicate check of that same branch shows the
intent was to accumulate methods, so this is recorded as a code bug. -/
theorem c1_root_reregistration_discards_methods :
    (c1Seq.map (fun r => r.handlerLow [] (gs "/") (gs "GET")) = .ok (.ok none))
    ∧ (c1Seq.map (fun r => r.HandlerTop c1Req) = .ok (.ok (.notFound, [], none)))
    ∧ (c1First.map (fun r => r.handlerLow [] (gs "/") (gs "GET"))
        = .ok (.ok (some (gs "/", 1, [])))) := by
  exact ⟨rfl, rfl, rfl⟩

/-- C2 counterexample: the claim asserts that after
`register(p, h, ALL)` a subsequent `register(p, h2, GET)` on the same
entry fails with `DuplicateEndpoint`, and symmetrically.  In the code
the duplicate check is an exact method-token lookup, so both sequences
succeed; after `ALL` then `GET`, the entry serves `GET` with `h2` and
other methods with `h1` through the `ALL` fallback. -/
theorem c2_all_does_not_collide :
    ((c2AllFirst.bind (fun r => r.register c2Pat (some 2) (gs "GET"))).isOk = true)
    ∧ ((c2GetFirst.bind (fun r => r.register c2Pat (some 2) (gs "ALL"))).isOk = true)
    ∧ ((c2AllFirst.bind (fun r => r.register c2Pat (some 2) (gs "GET"))).map
        (fun r => (r.handlerLow [] c2Pat (gs "GET"), r.handlerLow [] c2Pat (gs "POST")))
        = .ok (.ok (some (c2Pat, 2, [])), .ok (some (c2Pat, 1, [])))) := by
  exact ⟨rfl, rfl, rfl⟩

/-- C2 (amended): duplicate detection on an entry compares method
tokens exactly: `registerInEntry` fails with `DuplicateEndpoint` iff
the exact method key is already present in the entry's method map.  In
particular registering the same `(pattern, method)` twice fails — shown
for `ALL` twice and `GET` twice on `/path` — but `ALL` collides only
with `ALL`, not with specific method tokens. -/
theorem c2_exact_method_duplication :
    (∀ (en : Entry) (h : Nat) (m : GoStr),
      registerInEntry en h m = .error .endpointDuplication ↔ (lookupA en.mh m).isSome = true)
    ∧ ((c2AllFirst.bind (fun r => r.register c2Pat (some 2) (gs "ALL")))
        = .error .endpointDuplication)
    ∧ ((c2GetFirst.bind (fun r => r.register c2Pat (some 2) (gs "GET")))
        = .error .endpointDuplication) := by
  refine ⟨fun en h m => ?_, rfl, rfl⟩
  by_cases hb : (lookupA en.mh m).isSome
  · simp [registerInEntry, hb]
  · simp [registerInEntry, hb]

/-- C2 witness: the duplicate-detection equivalence applied to a
concrete entry whose method map holds exactly `GET`. -/
theorem c2_exact_method_duplication_w :
    registerInEntry ⟨c2Pat, .compiled (scanToks c2Pat), [(gs "GET", 1)]⟩ 9 (gs "GET")
      = .error .endpointDuplication :=
  (c2_exact_method_duplication.1 ⟨c2Pat, .compiled (scanToks c2Pat), [(gs "GET", 1)]⟩
    9 (gs "GET")).mpr (by rfl)

/-- C6: trailing slashes distinguish endpoints.  With `h1 = 1` on
`/users/` and `h2 = 2` on `/users` (registered in either order, both
successfully), `GET /users/` resolves to `h1` with pattern `/users/`
and `GET /users` resolves to `h2` with pattern `/users` — and at any
node the no-slash entry `eu` is consulted before the slash entry `es`:
whenever `eu` exists and its regex matches, it is selected regardless
of `es`. -/
theorem c6_trailing_slash_distinguishes :
    (c6SlashFirst.map (fun r => (r.HandlerTop c6ReqSlash, r.HandlerTop c6ReqNoSlash))
      = .ok (.ok (.h 1, gs "/users/", some []), .ok (.h 2, gs "/users", some [])))
    ∧ (c6NoSlashFirst.map (fun r => (r.HandlerTop c6ReqSlash, r.HandlerTop c6ReqNoSlash))
      = .ok (.ok (.h 1, gs "/users/", some []), .ok (.h 2, gs "/users", some [])))
    ∧ (∀ (n : Node) (path : GoStr) (e : Entry),
        n.eu = some e → e.re.matches path = true → entrySel n path = some e) := by
  refine ⟨rfl, rfl, fun n path e h1 h2 => ?_⟩
  simp [entrySel, h1, h2]

/-- C6 witness: the `eu`-before-`es` selection rule applied to a
concrete node and path. -/
theorem c6_trailing_slash_distinguishes_w :
    c6Node.eu = some c6Ent ∧ c6Ent.re.matches (gs "/x") = true
      ∧ entrySel c6Node (gs "/x") = some c6Ent :=
  ⟨rfl, by rfl, c6_trailing_slash_distinguishes.2.2 c6Node (gs "/x") c6Ent rfl (by rfl)⟩

/-- C7: namespace insertion splits prefixes as specified.  After
`namespace("a/b/c")` then `namespace("a")` the root map has exactly the
key `a` and that node exactly the child `b/c`; after an additional
`namespace("a/b")` the root has exactly `a`, node `a` exactly `b`, and
node `b` exactly `c`; and re-inserting `a/b` returns the existing node
(same key path into the unchanged tree). -/
theorem c7_namespace_splitting :
    (c7B.1.map Prod.fst = [gs "a"])
    ∧ (childKeysAt c7B.1 [gs "a"] = some [gs "b/c"])
    ∧ (c7C.1.map Prod.fst = [gs "a"])
    ∧ (childKeysAt c7C.1 [gs "a"] = some [gs "b"])
    ∧ (childKeysAt c7C.1 [gs "a", gs "b"] = some [gs "c"])
    ∧ (nsInsert c7C.1 (gs "a/b") = (c7C.1, [gs "a", gs "b"]))
    ∧ ((nodeAt c7C.1 [gs "a", gs "b"]).isSome = true) := by
  exact ⟨rfl, rfl, rfl, rfl, rfl, rfl, rfl⟩

/-- C8 counterexample: the claim describes the whole error taxonomy as
returned failures, but a non-addressable target makes `ParseBodyInto`
panic with `MissingPointer` rather than return it — exactly what both
generations of `TestParseBodyInto` demand ("panic if not give
pointer"). -/
theorem c8_pointer_fault_is_panic :
    parseBodyInto c8NoDecode .notPtr (some (gs "science")) = .panicked .missingPointer
    ∧ isReturnedFailure (parseBodyInto c8NoDecode .notPtr (some (gs "science"))) = false := by
  exact ⟨rfl, rfl⟩

/-- C8 (amended): `parse_body_into(target)` follows the stated error
taxonomy, with the pointer faults raised as panics and the rest as
returned failures: `MissingPointer` when the target is not addressable
and `NilPointer` when it points to nothing are panics; a failed numeric
parse returns `UnsupportedInt`/`UnsupportedFloat`; a missing body
returns `NilBody` for every parsing kind; a failed JSON decode of a
record target returns the generic parse error; an unrecognized target
kind returns the generic unsupported-target error. -/
theorem c8_error_taxonomy :
    ∀ (dec : GoStr → Bool) (b : Option GoStr) (s1 s2 s3 : GoStr),
      atoiOk s1 = false → floatOk s2 = false → dec s3 = false →
      parseBodyInto dec .notPtr b = .panicked .missingPointer
      ∧ parseBodyInto dec .nilPtr b = .panicked .nilPointer
      ∧ parseBodyInto dec .toInt (some s1) = .failed .unsupportedInt
      ∧ parseBodyInto dec .toFloat (some s2) = .failed .unsupportedFloat
      ∧ parseBodyInto dec .toInt none = .failed .nilBody
      ∧ parseBodyInto dec .toFloat none = .failed .nilBody
      ∧ parseBodyInto dec .toStr none = .failed .nilBody
      ∧ parseBodyInto dec .toRecord none = .failed .nilBody
      ∧ parseBodyInto dec .toRecord (some s3) = .failed .recordParse
      ∧ parseBodyInto dec .other b = .failed .unsupportedTarget := by
  intro dec b s1 s2 s3 h1 h2 h3
  refine ⟨rfl, rfl, ?_, ?_, rfl, rfl, rfl, rfl, ?_, rfl⟩
  · simp [parseBodyInto, h1]
  · simp [parseBodyInto, h2]
  · simp [parseBodyInto, h3]

/-- C8 witness: the taxonomy at the concrete inputs of the repository's
tests (`"a"` as the incompatible numeral, a decoder that rejects the
body). -/
theorem c8_error_taxonomy_w :
    parseBodyInto c8NoDecode .toInt (some (gs "a")) = .failed .unsupportedInt
    ∧ parseBodyInto c8NoDecode .toInt none = .failed .nilBody :=
  ⟨(c8_error_taxonomy c8NoDecode none (gs "a") (gs "a") (gs "a")
      (by rfl) (by rfl) (by rfl)).2.2.1,
   (c8_error_taxonomy c8NoDecode none (gs "a") (gs "a") (gs "a")
      (by rfl) (by rfl) (by rfl)).2.2.2.2.1⟩

/-- C9 counterexample: the claim asserts that `use` called with an
absent argument fails with `NilHandler` rather than silently doing
nothing; but an untyped nil matches no case of the `Use` type switch,
so the router is returned unchanged and no panic is raised. -/
theorem c9_use_nil_is_silent :
    emptyR.useArg (.nilArg []) = emptyR := by
  exact rfl

/-- C9 (amended): `register` called with an absent handler on any valid
pattern fails with `NilHandler`; `use` called with an absent argument
silently does nothing (the nil value matches no case of the type
switch), rather than failing with `NilHandler`. -/
theorem c9_nil_handler_register_and_use :
    ∀ (ro : RouterM) (p m : GoStr) (mws : List Mw),
      isValidPattern p = true →
      ro.register p none m = .error .emptyHandler
      ∧ ro.useArg (.nilArg mws) = ro := by
  intro ro p m mws hv
  refine ⟨?_, rfl⟩
  simp [RouterM.register, hv]

/-- C9 witness: nil-handler registration on the concrete valid pattern
`/path`, and the silent nil `use` on an empty router. -/
theorem c9_nil_handler_register_and_use_w :
    emptyR.register (gs "/path") none (gs "GET") = .error .emptyHandler
    ∧ emptyR.useArg (.nilArg []) = emptyR :=
  c9_nil_handler_register_and_use emptyR (gs "/path") (gs "GET") [] (by rfl)

end GoRouter

namespace GoRouter

/-! ### General lemmas about the capture engine -/

/-- Membership bounds for the descending candidate list. -/
theorem downFrom1_mem : ∀ (m j : Nat), j ∈ downFrom1 m → 1 ≤ j ∧ j ≤ m := by
  intro m
  induction m with
  | zero => intro j h; simp [downFrom1] at h
  | succ n ih =>
    intro j h
    simp only [downFrom1, List.mem_cons] at h
    rcases h with h | h
    · omega
    · have := ih j h; omega

/-- The `takeWhile` result is at most as long as the list. -/
theorem takeWhile_len_le (pr : Char → Bool) :
    ∀ (ds : GoStr), (ds.takeWhile pr).length ≤ ds.length := by
  intro ds
  induction ds with
  | nil => simp
  | cons d ds ih =>
    by_cases hd : pr d
    · rw [List.takeWhile_cons, if_pos hd]
      simpa using ih
    · rw [List.takeWhile_cons, if_neg hd]
      simp

/-- Elements of a `take` within the `takeWhile` range satisfy the
predicate. -/
theorem mem_take_takeWhile (pr : Char → Bool) :
    ∀ (ds : GoStr) (j : Nat), j ≤ (ds.takeWhile pr).length →
      ∀ c ∈ ds.take j, pr c = true := by
  intro ds
  induction ds with
  | nil => intro j _ c hc; simp at hc
  | cons d ds ih =>
    intro j hj c hc
    cases j with
    | zero => simp at hc
    | succ k =>
      by_cases hd : pr d
      · rw [List.takeWhile_cons, if_pos hd] at hj
        simp only [List.length_cons] at hj
        rw [List.take_succ_cons] at hc
        rcases List.mem_cons.mp hc with rfl | hc2
        · exact hd
        · exact ih k (by omega) c hc2
      · rw [List.takeWhile_cons, if_neg hd] at hj
        simp at hj

/-- Soundness of the fuelled submatch engine: a successful match yields
exactly one capture per group in declaration order, the captures
reassemble the matched string, and every captured value is a nonempty
slash-free piece. -/
theorem rmatchF_sound : ∀ (f : Nat),
    (∀ (toks : List RTok) (ds : GoStr) (caps : List (GoStr × GoStr)),
      rmatchF f toks ds = some caps →
      caps.map Prod.fst = groupNamesT toks ∧ reconL toks caps = ds ∧
        ∀ kv ∈ caps, kv.2 ≠ [] ∧ '/' ∉ kv.2)
    ∧ (∀ (name : GoStr) (ts : List RTok) (ds : GoStr) (js : List Nat)
        (caps : List (GoStr × GoStr)),
      (∀ j ∈ js, 1 ≤ j ∧ j ≤ (ds.takeWhile (fun d => d ≠ '/')).length) →
      tryLensF f name ts ds js = some caps →
      caps.map Prod.fst = name :: groupNamesT ts ∧
        reconL (.group name :: ts) caps = ds ∧
        ∀ kv ∈ caps, kv.2 ≠ [] ∧ '/' ∉ kv.2) := by
  intro f
  induction f with
  | zero =>
    constructor
    · intro toks ds caps h; simp [rmatchF] at h
    · intro name ts ds js caps _ h; simp [tryLensF] at h
  | succ f ih =>
    constructor
    · intro toks ds caps h
      cases toks with
      | nil =>
        cases ds with
        | nil =>
          simp only [rmatchF, Option.some.injEq] at h
          subst h
          exact ⟨rfl, rfl, by simp⟩
        | cons d ds => simp [rmatchF] at h
      | cons t ts =>
        cases t with
        | lit c =>
          cases ds with
          | nil => simp [rmatchF] at h
          | cons d ds =>
            simp only [rmatchF] at h
            by_cases hcd : c = d
            · rw [if_pos hcd] at h
              obtain ⟨m1, m2, m3⟩ := ih.1 ts ds caps h
              refine ⟨?_, ?_, m3⟩
              · simpa [groupNamesT] using m1
              · simp [reconL, m2, hcd]
            · rw [if_neg hcd] at h; exact absurd h (by simp)
        | group name =>
          simp only [rmatchF] at h
          exact ih.2 name ts ds _ caps (fun j hj => downFrom1_mem _ j hj) h
    · intro name ts ds js caps hjs h
      cases js with
      | nil => simp [tryLensF] at h
      | cons j js =>
        simp only [tryLensF] at h
        cases hr : rmatchF f ts (ds.drop j) with
        | some caps2 =>
          rw [hr] at h
          simp only [Option.some.injEq] at h
          subst h
          obtain ⟨m1, m2, m3⟩ := ih.1 ts (ds.drop j) caps2 hr
          have hj1 := hjs j (by simp)
          have hjlen : j ≤ ds.length :=
            le_trans hj1.2 (takeWhile_len_le _ ds)
          refine ⟨by simp [m1], ?_, ?_⟩
          · simp only [reconL, m2, List.take_append_drop]
          · intro kv hkv
            rcases List.mem_cons.mp hkv with rfl | hkv2
            · refine ⟨?_, ?_⟩
              · show ds.take j ≠ []
                intro hnil
                have hlt : (ds.take j).length = j := by
                  rw [List.length_take]; omega
                rw [hnil] at hlt
                simp at hlt
                omega
              · show '/' ∉ ds.take j
                intro hmem
                have := mem_take_takeWhile (fun d => d ≠ '/') ds j hj1.2 '/' hmem
                simp at this
            · exact m3 kv hkv2
        | none =>
          rw [hr] at h
          exact ih.2 name ts ds js caps
            (fun a ha => hjs a (List.mem_cons_of_mem _ ha)) h

/-- Soundness of `rmatch` (the engine at its chosen fuel). -/
theorem rmatch_sound (toks : List RTok) (ds : GoStr) (caps : List (GoStr × GoStr))
    (h : rmatch toks ds = some caps) :
    caps.map Prod.fst = groupNamesT toks ∧ reconL toks caps = ds ∧
      ∀ kv ∈ caps, kv.2 ≠ [] ∧ '/' ∉ kv.2 :=
  (rmatchF_sound _).1 toks ds caps h

/-! ### Lemmas about association lists and duplicate-freedom -/

/-- A key outside the key set is not found. -/
theorem lookupA_eq_none {α : Type} :
    ∀ (l : List (GoStr × α)) (k : GoStr), k ∉ l.map Prod.fst → lookupA l k = none := by
  intro l
  induction l with
  | nil => intro k _; rfl
  | cons kv t ih =>
    obtain ⟨k1, v1⟩ := kv
    intro k h
    simp only [List.map_cons, List.mem_cons] at h
    push_neg at h
    simp only [lookupA]
    rw [if_neg (fun hc => h.1 hc.symm)]
    exact ih k h.2

/-- Inserting an absent key appends. -/
theorem insertA_absent {α : Type} :
    ∀ (l : List (GoStr × α)) (k : GoStr) (v : α),
      lookupA l k = none → insertA l k v = l ++ [(k, v)] := by
  intro l
  induction l with
  | nil => intro k v _; rfl
  | cons kv t ih =>
    obtain ⟨k1, v1⟩ := kv
    intro k v h
    simp only [lookupA] at h
    by_cases hk : k1 = k
    · rw [if_pos hk] at h; exact absurd h (by simp)
    · rw [if_neg hk] at h
      simp [insertA, hk, ih k v h]

/-- Folding insert-or-overwrite over pairs with duplicate-free keys is
concatenation. -/
theorem foldl_insertA :
    ∀ (caps acc : List (GoStr × GoStr)),
      ((acc ++ caps).map Prod.fst).Nodup →
      caps.foldl (fun m kv => insertA m kv.1 kv.2) acc = acc ++ caps := by
  intro caps
  induction caps with
  | nil => intro acc _; simp
  | cons kv caps ih =>
    intro acc h
    have hnotin : kv.1 ∉ acc.map Prod.fst := by
      intro hin
      rw [List.map_append, List.nodup_append] at h
      exact h.2.2 hin (by simp)
    have h1 : insertA acc kv.1 kv.2 = acc ++ [kv] := by
      have := insertA_absent acc kv.1 kv.2 (lookupA_eq_none acc kv.1 hnotin)
      simpa using this
    rw [List.foldl_cons]
    show (caps.foldl (fun m kv => insertA m kv.1 kv.2) (insertA acc kv.1 kv.2)) = _
    rw [h1, ih (acc ++ [kv]) (by simpa using h)]
    simp

/-- Boolean duplicate-freedom implies `Nodup`. -/
theorem nodupB_sound : ∀ (l : List GoStr), nodupB l = true → l.Nodup := by
  intro l
  induction l with
  | nil => intro _; exact List.nodup_nil
  | cons x xs ih =>
    intro h
    simp only [nodupB, Bool.and_eq_true, Bool.not_eq_true'] at h
    refine List.nodup_cons.mpr ⟨?_, ih h.2⟩
    intro hmem
    have : xs.contains x = true := by
      simp [List.contains, List.elem_iff, hmem]
    rw [this] at h
    exact absurd h.1 (by simp)

end GoRouter

namespace GoRouter

/-- C5 counterexample: for the host-qualified parameterized pattern
`site.com/users/{id}` (registered successfully on GET), a matching
request `GET site.com/users/42` does not produce a parameter mapping:
the entry is located by matching `host+path`, but `handler` then runs
`FindStringSubmatch` against the bare path, which the anchored host
regex does not match, so indexing the nil `matches` slice panics. -/
theorem c5_host_param_capture_panics :
    (c5HostSeq.map (fun r => r.handlerLow (gs "site.com") (gs "/users/42") (gs "GET"))
      = .ok (.error .indexOutOfRange))
    ∧ (c5HostSeq.map (fun r => r.HandlerTop c5HostReq) = .ok (.error .indexOutOfRange)) := by
  exact ⟨rfl, rfl⟩

/-- C5 (amended): whenever a registered pattern's compiled regex is
matched against the cleaned request path — which is how every non-host
pattern is served; host-qualified parameterized entries matched via
`host+path` panic instead, as the counterexample shows — the parameter
mapping assembled by `handler` consists of exactly one binding per
`{x}` parameter of the pattern, in declaration order with no duplicate
or extra keys; each bound value is a nonempty slash-free string, and
interleaving the pattern's literal characters with the bound values
reconstructs the path exactly (so each `{x}` is bound to precisely the
corresponding path segment).  For a non-parameterized pattern the
mapping is empty (but present, never Go-nil). -/
theorem c5_param_capture_exact :
    ∀ (p path : GoStr) (toks : List RTok) (caps : List (GoStr × GoStr)),
      compilePat p = .ok toks →
      rmatch toks path = some caps →
      buildParams (.compiled toks) path = .ok caps
      ∧ caps.map Prod.fst = groupNamesT toks
      ∧ (groupNamesT toks).Nodup
      ∧ reconL toks caps = path
      ∧ (∀ kv ∈ caps, kv.2 ≠ [] ∧ '/' ∉ kv.2)
      ∧ (groupNamesT toks = [] → caps = []) := by
  intro p path toks caps hc hm
  have hnodupB : nodupB (groupNamesT toks) = true ∧ toks = scanToks p := by
    by_cases hok : (groupNamesT (scanToks p)).all validGroupName ∧ nodupB (groupNamesT (scanToks p))
    · have : toks = scanToks p := by
        simp [compilePat, hok.1, hok.2] at hc
        exact hc.symm
      subst this
      exact ⟨hok.2, rfl⟩
    · exfalso
      rw [compilePat] at hc
      rcases Decidable.not_and_iff_or_not.mp hok with hbad | hbad
      all_goals
        rw [if_neg (by simp [Bool.not_eq_true] at hbad ⊢; simp [hbad])] at hc
        exact absurd hc (by simp)
  obtain ⟨hm1, hm2, hm3⟩ := rmatch_sound toks path caps hm
  have hnodup : (groupNamesT toks).Nodup := nodupB_sound _ hnodupB.1
  refine ⟨?_, hm1, hnodup, hm2, hm3, ?_⟩
  · show buildParams (.compiled toks) path = .ok caps
    simp only [buildParams, Re.findSub, hm]
    rw [foldl_insertA caps [] (by simpa [hm1] using hnodup)]
    simp
  · intro hempty
    have : caps.map Prod.fst = [] := by rw [hm1, hempty]
    exact List.map_eq_nil_iff.mp this

/-- C5 witness: capture exactness at the concrete pattern
`/users/{id}` and path `/users/42`. -/
theorem c5_param_capture_exact_w :
    buildParams (.compiled (scanToks (gs "/users/\x7bid\x7d"))) (gs "/users/42")
        = .ok [(gs "id", gs "42")]
    ∧ reconL (scanToks (gs "/users/\x7bid\x7d")) [(gs "id", gs "42")] = gs "/users/42" :=
  ⟨(c5_param_capture_exact (gs "/users/\x7bid\x7d") (gs "/users/42")
      (scanToks (gs "/users/\x7bid\x7d")) [(gs "id", gs "42")] rfl rfl).1,
   (c5_param_capture_exact (gs "/users/\x7bid\x7d") (gs "/users/42")
      (scanToks (gs "/users/\x7bid\x7d")) [(gs "id", gs "42")] rfl rfl).2.2.2.1⟩

/-- Running the middlewares of one layer stops at the first one that
returns without calling `next`, after invoking it and everything before
it; the `select` then has no enabled case left. -/
theorem runMws_halt :
    ∀ (pre rest : List Mw) (m : Mw),
      (∀ x ∈ pre, x.b = .next) → m.b = .halt →
      runMws (pre ++ m :: rest)
        = ((pre ++ [m]).map (fun w => Event.mwCalled w.id), .stuck) := by
  intro pre
  induction pre with
  | nil =>
    intro rest m _ hm
    simp [runMws, hm]
  | cons x pre ih =>
    intro rest m hpre hm
    have hx : x.b = .next := hpre x (by simp)
    simp [runMws, hx, ih rest m (fun y hy => hpre y (by simp [hy])) hm]

/-- C3 counterexample: the claim asserts that a dispatch whose pipeline
contains a middleware that returns without calling `next` (and whose
context is never cancelled) terminates.  It does not: the check loop's
`select` waits on the index channel (to which nothing will ever be
sent again) and on the context, so `ServeHTTP` blocks forever.  The
silent parts do hold — the only event is the middleware invocation, so
neither the handler nor an error handler ran. -/
theorem c3_halting_middleware_blocks_dispatch :
    c3Router.serve c3Req = ([.mwCalled 0], .blockedS)
    ∧ (c3Router.serve c3Req).2 ≠ SOut.returned := by
  exact ⟨rfl, by decide⟩

/-- Running a layer whose middlewares all call `next()` invokes each of
them in order and proceeds. -/
theorem runMws_next :
    ∀ (mws : List Mw), (∀ x ∈ mws, x.b = .next) →
      runMws mws = (mws.map (fun w => Event.mwCalled w.id), .proceeded) := by
  intro mws
  induction mws with
  | nil => intro _; rfl
  | cons x mws ih =>
    intro h
    have hx : x.b = .next := h x (by simp)
    simp [runMws, hx, ih (fun y hy => h y (by simp [hy]))]

/-- If the flattened middleware chain of a layer walk is
`pre ++ m :: rest` with every middleware of `pre` calling `next()` and
`m` returning without calling `next`, the walk blocks after invoking
exactly `pre ++ [m]`. -/
theorem runLayers_halt :
    ∀ (path : List GoStr) (ns : List (GoStr × Node)) (mws pre rest : List Mw) (m : Mw),
      mwChain path ns mws = pre ++ m :: rest →
      (∀ x ∈ pre, x.b = .next) → m.b = .halt →
      runLayers path ns mws
        = ((pre ++ [m]).map (fun w => Event.mwCalled w.id), .blocked) := by
  intro path
  induction path with
  | nil =>
    intro ns mws pre rest m hchain hpre hm
    have hmws : mws = pre ++ m :: rest := by simpa [mwChain] using hchain
    subst hmws
    unfold runLayers
    rw [runMws_halt pre rest m hpre hm]
  | cons l rest2 ih =>
    intro ns mws pre rest m hchain hpre hm
    cases hl : lookupA ns l with
    | none =>
      simp only [mwChain, hl, List.append_nil] at hchain
      subst hchain
      unfold runLayers
      rw [runMws_halt pre rest m hpre hm]
    | some fwd =>
      simp only [mwChain, hl] at hchain
      rcases List.append_eq_append_iff.mp hchain with ⟨a, hpre2, ht⟩ | ⟨c, hmws2, hmc⟩
      · have hmn : ∀ x ∈ mws, x.b = .next := by
          intro x hx
          exact hpre x (by rw [hpre2]; exact List.mem_append_left _ hx)
        have han : ∀ x ∈ a, x.b = .next := by
          intro x hx
          exact hpre x (by rw [hpre2]; exact List.mem_append_right _ hx)
        have hchild := ih fwd.children fwd.mws a rest m ht han hm
        unfold runLayers
        rw [runMws_next mws hmn]
        simp [hl, hchild, hpre2]
      · cases c with
        | nil =>
          simp only [List.append_nil] at hmws2
          subst hmws2
          have ht : mwChain rest2 fwd.children fwd.mws = [] ++ m :: rest := by
            simpa using hmc.symm
          have hchild := ih fwd.children fwd.mws [] rest m ht (by simp) hm
          unfold runLayers
          rw [runMws_next mws hpre]
          simp [hl, hchild]
        | cons c0 c2 =>
          simp only [List.cons_append] at hmc
          injection hmc with h1 h2
          subst h1
          subst hmws2
          unfold runLayers
          rw [runMws_halt pre c2 m hpre hm]

/-- C3 (amended): for every request (context never cancelled) whose
middleware pipeline — the global chain followed by the chains of the
namespace layers the matched pattern walks through — reaches a
middleware that returns without calling `next` (all middlewares before
it called `next()`), the dispatch does NOT terminate: it blocks with
exactly the middleware invocations up to and including the halting one
as its events, so the matched handler is not invoked and no error
handler is called. -/
theorem c3_halt_blocks_pipeline :
    ∀ (ro : RouterM) (r : Req) (pre rest : List Mw) (m : Mw)
      (res : HRes × GoStr × Option (List (GoStr × GoStr))),
      r.requestURI ≠ [ '*' ] →
      ro.HandlerTop r = .ok res →
      ro.pipelineChain res.2.1 = pre ++ m :: rest →
      (∀ x ∈ pre, x.b = .next) →
      m.b = .halt →
      ro.serve r = ((pre ++ [m]).map (fun w => Event.mwCalled w.id), .blockedS) := by
  intro ro r pre rest m res huri hht hchain hpre hm
  unfold RouterM.pipelineChain at hchain
  simp only [RouterM.serve, if_neg huri, hht, RouterM.crossMw]
  rw [runLayers_halt _ _ _ pre rest m hchain hpre hm]

/-- C3 witness: the blocking theorem applied to a router whose halting
middleware is attached to the namespace layer `p` behind a `next()`
global middleware, on the matching request `GET /p`. -/
theorem c3_halt_blocks_pipeline_w :
    c3NodeRouter.serve c3NodeReq
      = (([(⟨0, .next⟩ : Mw)] ++ [(⟨1, .halt⟩ : Mw)]).map (fun w => Event.mwCalled w.id),
          .blockedS) :=
  c3_halt_blocks_pipeline c3NodeRouter c3NodeReq [⟨0, .next⟩] [] ⟨1, .halt⟩
    (.h 9, gs "/p", some []) (by decide) rfl rfl (by decide) rfl

end GoRouter

namespace GoRouter

/-- The slash probe of one candidate succeeds exactly when the C4
claim's conditions hold for it: entry present at the closer node, regex
match of the probed path, and method gating. -/
theorem probeSlash_isSome (ro : RouterM) (method c : GoStr) :
    (probeSlash ro method c).isSome = slashCandOK ro method c := by
  unfold probeSlash slashCandOK
  split
  · rfl
  · split
    · rfl
    · rename_i n hn1 en hn2
      by_cases hg : (lookupA en.mh method).isNone = true ∧ (lookupA en.mh (gs "ALL")).isNone = true
      · rw [if_pos hg]
        have h1 : (lookupA en.mh method).isSome = false := by
          rw [← Option.not_isSome] at hg
          simp [hg.1]
        have h2 : (lookupA en.mh (gs "ALL")).isSome = false := by
          rw [← Option.not_isSome] at hg
          simp [hg.2]
        simp [h1, h2]
      · rw [if_neg hg]
        have hor : ((lookupA en.mh method).isSome || (lookupA en.mh (gs "ALL")).isSome)
            = true := by
          rcases not_and_or.mp hg with hx | hx
          · simp only [Bool.not_eq_true, Option.isNone_eq_false_iff] at hx
            simp [hx]
          · simp only [Bool.not_eq_true, Option.isNone_eq_false_iff] at hx
            simp [hx]
        cases hb : en.re.matches (c ++ [ '/' ]) <;> simp [hb, hor]

/-- The unslash probe of one candidate succeeds exactly when the C4
claim's conditions hold for it. -/
theorem probeUnslash_isSome (ro : RouterM) (method c : GoStr) :
    (probeUnslash ro method c).isSome = unslashCandOK ro method c := by
  unfold probeUnslash unslashCandOK
  split
  · rfl
  · split
    · rfl
    · rename_i n hn1 en hn2
      by_cases hg : (lookupA en.mh method).isNone = true ∧ (lookupA en.mh (gs "ALL")).isNone = true
      · rw [if_pos hg]
        have h1 : (lookupA en.mh method).isSome = false := by
          rw [← Option.not_isSome] at hg
          simp [hg.1]
        have h2 : (lookupA en.mh (gs "ALL")).isSome = false := by
          rw [← Option.not_isSome] at hg
          simp [hg.2]
        simp [h1, h2]
      · rw [if_neg hg]
        have hor : ((lookupA en.mh method).isSome || (lookupA en.mh (gs "ALL")).isSome)
            = true := by
          rcases not_and_or.mp hg with hx | hx
          · simp only [Bool.not_eq_true, Option.isNone_eq_false_iff] at hx
            simp [hx]
          · simp only [Bool.not_eq_true, Option.isNone_eq_false_iff] at hx
            simp [hx]
        cases hb : en.re.matches c.dropLast <;> simp [hb, hor]

/-- A slash probe candidate yields nothing once the claim's conditions
fail. -/
theorem probeSlash_eq_none (ro : RouterM) (method c : GoStr)
    (h : slashCandOK ro method c = false) : probeSlash ro method c = none := by
  have hs := probeSlash_isSome ro method c
  rw [h] at hs
  exact Option.not_isSome_iff_eq_none.mp (by simp [hs])

/-- An unslash probe candidate yields nothing once the claim's
conditions fail. -/
theorem probeUnslash_eq_none (ro : RouterM) (method c : GoStr)
    (h : unslashCandOK ro method c = false) : probeUnslash ro method c = none := by
  have hs := probeUnslash_isSome ro method c
  rw [h] at hs
  exact Option.not_isSome_iff_eq_none.mp (by simp [hs])

end GoRouter

namespace GoRouter

/-- `path.Clean` always returns a nonempty string (it starts the result
with `/` for rooted inputs). -/
theorem pathClean_ne_nil (p : GoStr) : pathClean p ≠ [] := by
  unfold pathClean
  simp

/-- The trailing-slash restoration step keeps nonemptiness. -/
theorem cleanPathFix_ne_nil (p2 np : GoStr) (h2 : p2 ≠ []) (hn : np ≠ []) :
    cleanPathFix p2 np ≠ [] := by
  unfold cleanPathFix
  split
  · split
    · exact h2
    · simp
  · exact hn

/-- `cleanPath` never returns the empty string. -/
theorem cleanPath_ne_nil (p : GoStr) : cleanPath p ≠ [] := by
  cases p with
  | nil =>
    unfold cleanPath
    simp
  | cons c rest =>
    unfold cleanPath
    refine cleanPathFix_ne_nil _ _ ?_ (pathClean_ne_nil _)
    split <;> simp

/-- C4 counterexample: the claim promises that every non-hit,
non-redirect request reaches the not-found fallback, but a CONNECT
request in authority form (empty URL path, used verbatim) with no
direct hit never gets there — Go first reads `path[len(path)-1]` in
`shouldRedirectToSlashPath` and panics with an index-out-of-range. -/
theorem c4_conn_empty_path_panics :
    emptyR.HandlerTop c4ConnReq = .error .indexOutOfRange
    ∧ emptyR.HandlerTop c4ConnReq ≠ .ok (.notFound, [], none) := by
  have h : emptyR.HandlerTop c4ConnReq = .error .indexOutOfRange := rfl
  refine ⟨h, ?_⟩
  rw [h]
  intro hh
  exact Except.noConfusion hh

/-- C4 (amended): for every request with no direct hit whose resolved
path is nonempty — every non-CONNECT request, since path cleaning
yields a nonempty path, and every CONNECT request with a nonempty URL
path — a trailing-slash or slash-stripping 301 redirect is issued only
if some probed candidate satisfies the claim's conditions — the probed
target entry exists at the closer node, its compiled regex matches the
probed path, and the entry carries a handler for the request's method
or for the `ALL` sentinel; and when no probe satisfies them, `Handler`
returns the not-found handler with empty pattern and nil params.  (A
CONNECT request with an empty URL path instead panics in the probes,
per the counterexample.) -/
theorem c4_redirect_requires_entry_method_and_regex :
    ∀ (ro : RouterM) (r : Req),
      (r.method ≠ gs "CONNECT" ∨ r.urlPath ≠ []) →
      ro.handlerLow (resolvedHostPath r).1 (resolvedHostPath r).2 r.method = .ok none →
      (isRedirect3 (ro.HandlerTop r) = true →
        redirectJustifiedB ro (resolvedHostPath r).1 (resolvedHostPath r).2 r.method = true)
      ∧ (redirectJustifiedB ro (resolvedHostPath r).1 (resolvedHostPath r).2 r.method = false →
        ro.HandlerTop r = .ok (.notFound, [], none)) := by
  intro ro r hcon hlow
  have hne : (resolvedHostPath r).2 ≠ [] := by
    by_cases hm : r.method = gs "CONNECT"
    · rcases hcon with hx | hx
      · exact absurd hm hx
      · simpa [resolvedHostPath, hm] using hx
    · simp only [resolvedHostPath, if_neg hm]
      exact cleanPath_ne_nil _
  obtain ⟨c, hc⟩ : ∃ c, (resolvedHostPath r).2.getLast? = some c := by
    cases hgl : (resolvedHostPath r).2.getLast? with
    | none => exact absurd (List.getLast?_eq_none_iff.mp hgl) hne
    | some c => exact ⟨c, rfl⟩
  have hnf : redirectJustifiedB ro (resolvedHostPath r).1 (resolvedHostPath r).2 r.method
        = false →
      ro.HandlerTop r = .ok (.notFound, [], none) := by
    intro hj
    rw [redirectJustifiedB] at hj
    simp only [Bool.or_eq_false_iff] at hj
    obtain ⟨⟨⟨h1, h2⟩, h3⟩, h4⟩ := hj
    have hps : ro.shouldRedirectToSlashPath (resolvedHostPath r).1 (resolvedHostPath r).2
        r.method = .ok none := by
      unfold RouterM.shouldRedirectToSlashPath
      simp only [hc]
      by_cases hcs : c = '/'
      · rw [if_pos hcs]
      · rw [if_neg hcs, probeSlash_eq_none ro r.method _ h1,
          probeSlash_eq_none ro r.method _ h2]
    have hpu : ro.shouldRedirectToUnslashPath (resolvedHostPath r).1 (resolvedHostPath r).2
        r.method = .ok none := by
      unfold RouterM.shouldRedirectToUnslashPath
      simp only [hc]
      by_cases hcs : c = '/'
      · rw [if_pos hcs, probeUnslash_eq_none ro r.method _ h3,
          probeUnslash_eq_none ro r.method _ h4]
      · rw [if_neg hcs]
    unfold RouterM.HandlerTop handlerCore
    rw [hlow, hps, hpu]
  refine ⟨?_, hnf⟩
  intro hred
  by_contra hjf
  rw [Bool.not_eq_true] at hjf
  rw [hnf hjf] at hred
  exact absurd hred (by simp [isRedirect3])

/-- C4 witness: the redirect gating applied to the empty router and the
request `GET /a` (which has no direct hit and a nonempty resolved
path). -/
theorem c4_redirect_requires_entry_method_and_regex_w :
    (isRedirect3 (emptyR.HandlerTop c4WReq) = true →
      redirectJustifiedB emptyR (resolvedHostPath c4WReq).1 (resolvedHostPath c4WReq).2
        c4WReq.method = true)
    ∧ (redirectJustifiedB emptyR (resolvedHostPath c4WReq).1 (resolvedHostPath c4WReq).2
        c4WReq.method = false →
      emptyR.HandlerTop c4WReq = .ok (.notFound, [], none)) :=
  c4_redirect_requires_entry_method_and_regex emptyR c4WReq (Or.inl (by decide)) rfl

/-- A root layer walk with the empty pattern runs only the global
middlewares: the empty key is never a namespace child. -/
theorem runLayers_root_empty (ns : List (GoStr × Node)) (mws : List Mw)
    (hns : lookupA ns [] = none) :
    runLayers [[]] ns mws =
      match (runMws mws).2 with
      | .stuck => ((runMws mws).1, .blocked)
      | .errored e => ((runMws mws).1, .done [e])
      | .proceeded => ((runMws mws).1, .done []) := by
  unfold runLayers
  cases hr : (runMws mws).2 with
  | stuck => simp [hr]
  | errored e => simp [hr, hns]
  | proceeded => simp [hr, hns]

/-- C10: global middlewares run on every dispatch, including requests
that resolve to the not-found handler.  For a router whose only global
middleware `M` calls `next()`, a request resolving to not-found
invokes `M` exactly once and then writes the 404 response; if `M`
instead passes an error to `next`, the dispatch ends with the error
handling events (registered handler or 500 reply) and the not-found
handler never runs. -/
theorem c10_global_middleware_runs_on_not_found :
    ∀ (ro : RouterM) (r : Req) (i e : Nat),
      lookupA ro.ns [] = none →
      r.requestURI ≠ [ '*' ] →
      ro.HandlerTop r = .ok (.notFound, [], none) →
      (({ ro with mws := [⟨i, .next⟩] } : RouterM).serve r
          = ([.mwCalled i, .wroteStatus 404], .returned))
      ∧ (({ ro with mws := [⟨i, .nextErr e⟩] } : RouterM).serve r
          = ([.mwCalled i] ++ mwErrorEvents ro.meh e, .returned))
      ∧ Event.wroteStatus 404 ∉ ([Event.mwCalled i] ++ mwErrorEvents ro.meh e) := by
  intro ro r i e hns huri hht
  refine ⟨?_, ?_, ?_⟩
  · have hht1 : ({ ro with mws := [⟨i, MwB.next⟩] } : RouterM).HandlerTop r
        = .ok (.notFound, [], none) := hht
    simp only [RouterM.serve, if_neg huri, hht1, RouterM.crossMw]
    rw [show splitChar '/' (dropSuf [ '/' ] (dropPre [ '/' ] ([] : GoStr))) = [[]] from rfl]
    rw [runLayers_root_empty _ _ (show lookupA ro.ns [] = none from hns)]
    rfl
  · have hht1 : ({ ro with mws := [⟨i, MwB.nextErr e⟩] } : RouterM).HandlerTop r
        = .ok (.notFound, [], none) := hht
    simp only [RouterM.serve, if_neg huri, hht1, RouterM.crossMw]
    rw [show splitChar '/' (dropSuf [ '/' ] (dropPre [ '/' ] ([] : GoStr))) = [[]] from rfl]
    rw [runLayers_root_empty _ _ (show lookupA ro.ns [] = none from hns)]
    rfl
  · cases hmeh : ro.meh <;> simp [mwErrorEvents]

/-- C10 witness: the not-found dispatch with one global middleware on
the empty router (`GET /nothing` resolves to 404 there). -/
theorem c10_global_middleware_runs_on_not_found_w :
    (({ emptyR with mws := [⟨5, .next⟩] } : RouterM).serve c10Req
        = ([.mwCalled 5, .wroteStatus 404], .returned))
    ∧ (({ emptyR with mws := [⟨5, .nextErr 7⟩] } : RouterM).serve c10Req
        = ([.mwCalled 5] ++ mwErrorEvents emptyR.meh 7, .returned))
    ∧ Event.wroteStatus 404 ∉ ([Event.mwCalled 5] ++ mwErrorEvents emptyR.meh 7) :=
  c10_global_middleware_runs_on_not_found emptyR c10Req 5 7 rfl (by decide) rfl

end GoRouter
